import Mathlib

/-!
Verification of the cursor animation module
(`crates/editor/src/cursor_animation_manager.rs`).

Embedding conventions:
* `Pixels` (an `f32` wrapper used only through `+`, `-`, `*` by a scalar and
  equality) is modelled as `ℚ`, so the interpolation arithmetic is exact.
* `Instant` is a nanosecond timestamp (`ℕ`); `Duration` is a nanosecond
  count (`ℕ`).  `start_time.elapsed()` at wall-clock time `now` is the
  saturating difference `now - start_time`, matching `Instant::elapsed`.
  `Duration::as_millis` is truncating division by `1000000`.
* Methods that read the clock take `now : ℕ` explicitly.
* Side effects of the controller (`cx.notify()` and spawning a timer that
  will call `update_animation epoch`) are returned explicitly in an
  `Effects` record: a count of redraw requests and the list of epochs of
  the wake-ups scheduled by the call.
-/

namespace ZedCursor

/-- 2D point of pixel coordinates (`gpui::Point<Pixels>` with `Pixels` as ℚ). -/
structure Point where
  x : ℚ
  y : ℚ
deriving DecidableEq, Repr

/-- `const ANIMATION_DURATION_MS: u64 = 120;` -/
def ANIMATION_DURATION_MS : ℕ := 120

/-- Nanoseconds in one millisecond, to convert `Duration::from_millis`. -/
def NS_PER_MS : ℕ := 1000000

/-- `AnimatedCursorPosition`: start point, end point, construction
timestamp, fixed duration (all durations/timestamps in nanoseconds). -/
structure AnimatedCursorPosition where
  start_point : Point
  end_point : Point
  start_time : ℕ
  duration : ℕ
deriving DecidableEq, Repr

namespace AnimatedCursorPosition

/-- `AnimatedCursorPosition::new(start, end)`, with the construction time
`now` passed explicitly (`Instant::now()`). -/
def new (start finish : Point) (now : ℕ) : AnimatedCursorPosition :=
  { start_point := start
    end_point := finish
    start_time := now
    duration := ANIMATION_DURATION_MS * NS_PER_MS }

/-- `fn ease_out_cubic(t: f32) -> f32 { 1.0 - (1.0 - t).powi(3) }` -/
def ease_out_cubic (t : ℚ) : ℚ :=
  1 - (1 - t) ^ 3

/-- `AnimatedCursorPosition::current_position`, evaluated at wall-clock
time `now`.  `elapsed.as_millis() as f32 / duration.as_millis() as f32`
becomes exact rational division of the truncated millisecond counts. -/
def current_position (a : AnimatedCursorPosition) (now : ℕ) : Point :=
  let elapsed := now - a.start_time
  if a.duration ≤ elapsed then
    a.end_point
  else
    let progress : ℚ := ((elapsed / NS_PER_MS : ℕ) : ℚ) / ((a.duration / NS_PER_MS : ℕ) : ℚ)
    let smooth_progress := ease_out_cubic progress
    { x := a.start_point.x + (a.end_point.x - a.start_point.x) * smooth_progress
      y := a.start_point.y + (a.end_point.y - a.start_point.y) * smooth_progress }

/-- `AnimatedCursorPosition::is_complete`, evaluated at wall-clock time `now`. -/
def is_complete (a : AnimatedCursorPosition) (now : ℕ) : Bool :=
  a.duration ≤ now - a.start_time

end AnimatedCursorPosition

/-- The side effects a controller call performs on its GPUI context:
how many times it called `cx.notify()` (redraw requests) and the epochs
of the animation-frame wake-ups it spawned. -/
structure Effects where
  notify_count : ℕ
  scheduled : List ℕ
deriving DecidableEq, Repr

/-- No side effects. -/
def Effects.empty : Effects := { notify_count := 0, scheduled := [] }

/-- `CursorAnimationManager`: epoch counter, enabled flag, at most one
active interpolator. -/
structure CursorAnimationManager where
  animation_epoch : ℕ
  enabled : Bool
  active_animation : Option AnimatedCursorPosition
deriving DecidableEq, Repr

namespace CursorAnimationManager

/-- The state part of `CursorAnimationManager::new`: epoch 0, disabled,
no active animation (the settings observer it registers is modelled as
the `settings_changed` transition below). -/
def init : CursorAnimationManager :=
  { animation_epoch := 0, enabled := false, active_animation := none }

/-- `fn next_animation_epoch(&mut self) -> usize`: increments the epoch
and returns the new value. -/
def next_animation_epoch (m : CursorAnimationManager) : CursorAnimationManager × ℕ :=
  ({ m with animation_epoch := m.animation_epoch + 1 }, m.animation_epoch + 1)

/-- `fn schedule_animation_frame(&mut self, epoch, cx)`: returns the list
of wake-up epochs spawned (no state change; the spawn is skipped when
disabled). -/
def schedule_animation_frame (m : CursorAnimationManager) (epoch : ℕ) : List ℕ :=
  if !m.enabled then [] else [epoch]

/-- `pub fn start_animation(&mut self, start_position, end_position, cx)`,
with the current wall-clock time `now` passed explicitly. -/
def start_animation (m : CursorAnimationManager) (start_position end_position : Point)
    (now : ℕ) : CursorAnimationManager × Effects :=
  if !m.enabled then
    (m, Effects.empty)
  else if start_position = end_position then
    (m, Effects.empty)
  else
    let m1 := { m with
      active_animation := some (AnimatedCursorPosition.new start_position end_position now) }
    let (m2, epoch) := m1.next_animation_epoch
    (m2, { notify_count := 0, scheduled := m2.schedule_animation_frame epoch })

/-- `fn update_animation(&mut self, epoch, cx)` — the wake-up (tick)
handler, at wall-clock time `now`. -/
def update_animation (m : CursorAnimationManager) (epoch : ℕ) (now : ℕ) :
    CursorAnimationManager × Effects :=
  if epoch ≠ m.animation_epoch ∨ m.enabled = false then
    (m, Effects.empty)
  else
    match m.active_animation with
    | none => (m, Effects.empty)
    | some animation =>
      if animation.is_complete now then
        ({ m with active_animation := none }, Effects.empty)
      else
        (m, { notify_count := 1, scheduled := m.schedule_animation_frame epoch })

/-- `pub fn current_cursor_position(&self, static_position) -> Point`,
at wall-clock time `now`.  A pure read (`&self`): the embedding returns
only the point, there is no state or effect output. -/
def current_cursor_position (m : CursorAnimationManager) (static_position : Point)
    (now : ℕ) : Point :=
  if !m.enabled then
    static_position
  else
    match m.active_animation with
    | some animation =>
      if !animation.is_complete now then animation.current_position now
      else static_position
    | none => static_position

/-- `pub fn is_animating(&self) -> bool`, at wall-clock time `now`. -/
def is_animating (m : CursorAnimationManager) (now : ℕ) : Bool :=
  m.enabled &&
    (m.active_animation.map (fun a => !a.is_complete now)).getD false

/-- `pub fn set_enabled(&mut self, enabled: bool)`. -/
def set_enabled (m : CursorAnimationManager) (enabled : Bool) : CursorAnimationManager :=
  if !enabled then
    { m with enabled := enabled, active_animation := none }
  else
    { m with enabled := enabled }

/-- The settings-observer closure registered in `new`: on a settings
change it reads the new flag and updates state only when it differs. -/
def settings_changed (m : CursorAnimationManager) (enabled : Bool) : CursorAnimationManager :=
  if m.enabled ≠ enabled then
    if !enabled then
      { m with enabled := enabled, active_animation := none }
    else
      { m with enabled := enabled }
  else
    m

end CursorAnimationManager

/-- Derived quantity: the progress ratio `elapsed_ms / duration_ms` a
`new`-built interpolator started at `t0` computes at wall-clock time `t`. -/
def progress_at (t0 t : ℕ) : ℚ :=
  (((t - t0) / NS_PER_MS : ℕ) : ℚ) / (ANIMATION_DURATION_MS : ℚ)

/-- Derived quantity: the effective easing factor of a `new`-built
interpolator started at `t0` when queried at time `t` — `1` once complete,
`ease_out_cubic` of the progress before that. -/
def eased_at (t0 t : ℕ) : ℚ :=
  if ANIMATION_DURATION_MS * NS_PER_MS ≤ t - t0 then 1
  else AnimatedCursorPosition.ease_out_cubic (progress_at t0 t)

/-- One observable transition of the controller, on (state, wall-clock time)
pairs.  Time never decreases across a step; `wait` lets time pass with no
operation; `tick` is the asynchronous wake-up `update_animation`, which GPUI
may deliver at any time at or after it was spawned; `toggle` is a direct
`set_enabled` call and `settings` the registered settings observer. -/
inductive Step : CursorAnimationManager × ℕ → CursorAnimationManager × ℕ → Prop where
  | wait (m : CursorAnimationManager) (t u : ℕ) (h : t ≤ u) :
      Step (m, t) (m, u)
  | start (m : CursorAnimationManager) (t u : ℕ) (p q : Point) (h : t ≤ u) :
      Step (m, t) ((m.start_animation p q u).1, u)
  | tick (m : CursorAnimationManager) (t u e : ℕ) (h : t ≤ u) :
      Step (m, t) ((m.update_animation e u).1, u)
  | toggle (m : CursorAnimationManager) (t u : ℕ) (b : Bool) (h : t ≤ u) :
      Step (m, t) (m.set_enabled b, u)
  | settings (m : CursorAnimationManager) (t u : ℕ) (b : Bool) (h : t ≤ u) :
      Step (m, t) (m.settings_changed b, u)

/-- `m` is reachable at wall-clock time `t` from the freshly constructed
controller (taken to exist at time 0) via the public operations and
asynchronously delivered wake-ups. -/
def ReachableAt (m : CursorAnimationManager) (t : ℕ) : Prop :=
  Relation.ReflTransGen Step (CursorAnimationManager.init, 0) (m, t)

open AnimatedCursorPosition CursorAnimationManager

/-- C1: for an interpolator built by `new(start, end)` at time `t0`, queried at
time `now`: if the elapsed time is at least the 120 ms duration,
`current_position` returns the end point exactly and `is_complete` is true;
otherwise `is_complete` is false and `current_position` is, per axis,
`start + (end - start) * (1 - (1 - progress)^3)` with
`progress = elapsed_ms / 120` computed from whole elapsed milliseconds. -/
theorem C1_interpolator_position (s e : Point) (t0 now : ℕ) :
    (120000000 ≤ now - t0 →
      (AnimatedCursorPosition.new s e t0).current_position now = e ∧
      (AnimatedCursorPosition.new s e t0).is_complete now = true) ∧
    (now - t0 < 120000000 →
      (AnimatedCursorPosition.new s e t0).is_complete now = false ∧
      (AnimatedCursorPosition.new s e t0).current_position now =
        { x := s.x + (e.x - s.x) * (1 - (1 - (((now - t0) / 1000000 : ℕ) : ℚ) / 120) ^ 3),
          y := s.y + (e.y - s.y) * (1 - (1 - (((now - t0) / 1000000 : ℕ) : ℚ) / 120) ^ 3) }) := by
  have hdur : ANIMATION_DURATION_MS * NS_PER_MS = 120000000 := by decide
  constructor
  · intro h
    constructor
    · simp only [AnimatedCursorPosition.current_position, AnimatedCursorPosition.new, hdur]
      rw [if_pos h]
    · simp only [AnimatedCursorPosition.is_complete, AnimatedCursorPosition.new, hdur,
        decide_eq_true_eq]
      exact h
  · intro h
    constructor
    · simp only [AnimatedCursorPosition.is_complete, AnimatedCursorPosition.new, hdur,
        decide_eq_false_iff_not, not_le]
      exact h
    · simp only [AnimatedCursorPosition.current_position, AnimatedCursorPosition.new,
        AnimatedCursorPosition.ease_out_cubic, hdur]
      rw [if_neg (by omega)]
      norm_num [NS_PER_MS]

/-- Witness for C1 at start (0,0), end (120,0), start time 0, querying both
at 130 ms (complete) and at 60 ms (in flight). -/
theorem C1_interpolator_position_witness :
    ((AnimatedCursorPosition.new ⟨0, 0⟩ ⟨120, 0⟩ 0).current_position 130000000 = ⟨120, 0⟩ ∧
      (AnimatedCursorPosition.new ⟨0, 0⟩ ⟨120, 0⟩ 0).is_complete 130000000 = true) ∧
    ((AnimatedCursorPosition.new ⟨0, 0⟩ ⟨120, 0⟩ 0).is_complete 60000000 = false ∧
      (AnimatedCursorPosition.new ⟨0, 0⟩ ⟨120, 0⟩ 0).current_position 60000000 =
        { x := 0 + (120 - 0) * (1 - (1 - ((60000000 / 1000000 : ℕ) : ℚ) / 120) ^ 3),
          y := 0 + (0 - 0) * (1 - (1 - ((60000000 / 1000000 : ℕ) : ℚ) / 120) ^ 3) }) :=
  ⟨(C1_interpolator_position ⟨0, 0⟩ ⟨120, 0⟩ 0 130000000).1 (by decide),
   (C1_interpolator_position ⟨0, 0⟩ ⟨120, 0⟩ 0 60000000).2 (by decide)⟩

/-- C2: a wake-up whose epoch differs from the current one, or which runs
while disabled, changes no state, requests no redraw and schedules nothing;
in particular after a successful second `start_animation` bumps the epoch,
a wake-up tagged with the previous (superseded) epoch is a no-op. -/
theorem C2_stale_or_disabled_tick_noop (m : CursorAnimationManager) (e now : ℕ) :
    ((e ≠ m.animation_epoch ∨ m.enabled = false) →
      m.update_animation e now = (m, Effects.empty)) ∧
    (∀ (p q : Point) (t u : ℕ), m.enabled = true → p ≠ q →
      (m.start_animation p q t).1.update_animation m.animation_epoch u =
        ((m.start_animation p q t).1, Effects.empty)) := by
  constructor
  · intro h
    simp only [update_animation]
    rw [if_pos h]
  · intro p q t u hen hne
    have hstart : (m.start_animation p q t).1 =
        { m with
          animation_epoch := m.animation_epoch + 1
          active_animation := some (AnimatedCursorPosition.new p q t) } := by
      simp [start_animation, hen, hne, next_animation_epoch]
    rw [hstart]
    simp only [update_animation]
    rw [if_pos (Or.inl (by omega))]

/-- Witness for C2: a stale-epoch tick on the initial state, and a
superseded-generation tick after a second animation starts. -/
theorem C2_stale_or_disabled_tick_noop_witness :
    (CursorAnimationManager.init.update_animation 5 0 =
      (CursorAnimationManager.init, Effects.empty)) ∧
    ((CursorAnimationManager.mk 3 true none).start_animation ⟨0, 0⟩ ⟨1, 0⟩ 0).1.update_animation
        3 7000000 =
      (((CursorAnimationManager.mk 3 true none).start_animation ⟨0, 0⟩ ⟨1, 0⟩ 0).1,
        Effects.empty) :=
  ⟨(C2_stale_or_disabled_tick_noop CursorAnimationManager.init 5 0).1 (Or.inl (by decide)),
   (C2_stale_or_disabled_tick_noop (CursorAnimationManager.mk 3 true none) 0 0).2
     ⟨0, 0⟩ ⟨1, 0⟩ 0 7000000 rfl (by decide)⟩

/-- Helper: `start_animation` returns the manager unchanged with no effects
whenever one of its two guards fires. -/
theorem start_animation_guard_noop (m : CursorAnimationManager) (p q : Point) (now : ℕ)
    (h : m.enabled = false ∨ p = q) : m.start_animation p q now = (m, Effects.empty) := by
  rcases h with h | h
  · simp [start_animation, h]
  · by_cases hen : m.enabled
    · simp [start_animation, hen, h]
    · simp [start_animation, Bool.eq_false_iff.2 hen]

/-- C4: `start_animation` is a total no-op when disabled or when the two
points are equal (state unchanged, nothing scheduled, no redraw); in the
equal-points case `is_animating` stays false if it was false. -/
theorem C4_start_animation_noop (m : CursorAnimationManager) (p q : Point) (now : ℕ) :
    ((m.enabled = false ∨ p = q) → m.start_animation p q now = (m, Effects.empty)) ∧
    (p = q → ∀ t, m.is_animating t = false →
      ((m.start_animation p q now).1.is_animating t = false)) := by
  refine ⟨start_animation_guard_noop m p q now, ?_⟩
  intro hpq t hanim
  rw [start_animation_guard_noop m p q now (Or.inr hpq)]
  exact hanim

/-- Witness for C4: starting with equal points on an enabled idle manager
changes nothing and leaves `is_animating` false. -/
theorem C4_start_animation_noop_witness :
    ((CursorAnimationManager.mk 0 true none).start_animation ⟨2, 3⟩ ⟨2, 3⟩ 0 =
      (CursorAnimationManager.mk 0 true none, Effects.empty)) ∧
    (((CursorAnimationManager.mk 0 true none).start_animation ⟨2, 3⟩ ⟨2, 3⟩ 0).1.is_animating 0 =
      false) :=
  ⟨(C4_start_animation_noop (CursorAnimationManager.mk 0 true none) ⟨2, 3⟩ ⟨2, 3⟩ 0).1
      (Or.inr (by decide)),
   (C4_start_animation_noop (CursorAnimationManager.mk 0 true none) ⟨2, 3⟩ ⟨2, 3⟩ 0).2
      (by decide) 0 (by decide)⟩

/-- C5: `set_enabled false` clears the active animation immediately; right
after it, `is_animating` is false and `current_cursor_position` returns the
static position, for every static position and query time. -/
theorem C5_disable_clears_animation (m : CursorAnimationManager) (sp : Point) (now : ℕ) :
    (m.set_enabled false).active_animation = none ∧
    (m.set_enabled false).is_animating now = false ∧
    (m.set_enabled false).current_cursor_position sp now = sp := by
  simp [set_enabled, is_animating, current_cursor_position]

/-- C6: `current_cursor_position` returns the static position when disabled,
when there is no active animation, or when the active animation is complete;
otherwise it returns the interpolator's `current_position`.  (It is a `&self`
read in the source; the embedding gives it no state or effect output.) -/
theorem C6_current_cursor_position_cases (m : CursorAnimationManager) (sp : Point) (now : ℕ) :
    ((m.enabled = false ∨ m.active_animation = none ∨
        (∀ a, m.active_animation = some a → a.is_complete now = true)) →
      m.current_cursor_position sp now = sp) ∧
    (∀ a, m.enabled = true → m.active_animation = some a → a.is_complete now = false →
      m.current_cursor_position sp now = a.current_position now) := by
  constructor
  · intro h
    rcases h with h | h | h
    · simp [current_cursor_position, h]
    · by_cases hen : m.enabled
      · simp [current_cursor_position, hen, h]
      · simp [current_cursor_position, Bool.eq_false_iff.2 hen]
    · by_cases hen : m.enabled
      · cases hact : m.active_animation with
        | none => simp [current_cursor_position, hen, hact]
        | some a => simp [current_cursor_position, hen, hact, h a hact]
      · simp [current_cursor_position, Bool.eq_false_iff.2 hen]
  · intro a hen hact hc
    simp [current_cursor_position, hen, hact, hc]

/-- Witness for C6: a disabled manager passes the static position through; an
enabled manager with a fresh in-flight animation returns the interpolation. -/
theorem C6_current_cursor_position_cases_witness :
    ((CursorAnimationManager.mk 0 false none).current_cursor_position ⟨7, 8⟩ 0 = ⟨7, 8⟩) ∧
    ((CursorAnimationManager.mk 1 true
        (some (AnimatedCursorPosition.new ⟨0, 0⟩ ⟨1, 0⟩ 0))).current_cursor_position ⟨7, 8⟩ 0 =
      (AnimatedCursorPosition.new ⟨0, 0⟩ ⟨1, 0⟩ 0).current_position 0) :=
  ⟨(C6_current_cursor_position_cases (CursorAnimationManager.mk 0 false none) ⟨7, 8⟩ 0).1
      (Or.inl rfl),
   (C6_current_cursor_position_cases
      (CursorAnimationManager.mk 1 true (some (AnimatedCursorPosition.new ⟨0, 0⟩ ⟨1, 0⟩ 0)))
      ⟨7, 8⟩ 0).2 (AnimatedCursorPosition.new ⟨0, 0⟩ ⟨1, 0⟩ 0) rfl rfl (by decide)⟩

/-- C7: a wake-up with the current epoch on an enabled manager: when the
active animation is complete it clears it, with no redraw and nothing
scheduled; when it is not complete it requests exactly one redraw and
schedules exactly one wake-up tagged with the same epoch. -/
theorem C7_current_tick_behavior (m : CursorAnimationManager) (now : ℕ)
    (a : AnimatedCursorPosition) (hen : m.enabled = true)
    (hact : m.active_animation = some a) :
    (a.is_complete now = true →
      m.update_animation m.animation_epoch now =
        ({ m with active_animation := none }, Effects.empty)) ∧
    (a.is_complete now = false →
      m.update_animation m.animation_epoch now =
        (m, { notify_count := 1, scheduled := [m.animation_epoch] })) := by
  constructor
  · intro hc
    simp [update_animation, hen, hact, hc]
  · intro hc
    simp [update_animation, schedule_animation_frame, hen, hact, hc]

/-- Witness for C7: a completed animation is cleared silently; an in-flight
one produces one redraw and one rescheduled wake-up with the same epoch. -/
theorem C7_current_tick_behavior_witness :
    ((CursorAnimationManager.mk 2 true
        (some (AnimatedCursorPosition.new ⟨0, 0⟩ ⟨1, 0⟩ 0))).update_animation 2 130000000 =
      (CursorAnimationManager.mk 2 true none, Effects.empty)) ∧
    ((CursorAnimationManager.mk 2 true
        (some (AnimatedCursorPosition.new ⟨0, 0⟩ ⟨1, 0⟩ 0))).update_animation 2 8000000 =
      (CursorAnimationManager.mk 2 true
        (some (AnimatedCursorPosition.new ⟨0, 0⟩ ⟨1, 0⟩ 0)),
        { notify_count := 1, scheduled := [2] })) :=
  ⟨(C7_current_tick_behavior
      (CursorAnimationManager.mk 2 true (some (AnimatedCursorPosition.new ⟨0, 0⟩ ⟨1, 0⟩ 0)))
      130000000 (AnimatedCursorPosition.new ⟨0, 0⟩ ⟨1, 0⟩ 0) rfl rfl).1 (by decide),
   (C7_current_tick_behavior
      (CursorAnimationManager.mk 2 true (some (AnimatedCursorPosition.new ⟨0, 0⟩ ⟨1, 0⟩ 0)))
      8000000 (AnimatedCursorPosition.new ⟨0, 0⟩ ⟨1, 0⟩ 0) rfl rfl).2 (by decide)⟩

/-- C9: a wake-up with the current epoch on an enabled manager whose active
animation is `None` is a complete no-op: no state change, no redraw, nothing
scheduled. -/
theorem C9_idle_tick_noop (m : CursorAnimationManager) (now : ℕ)
    (hen : m.enabled = true) (hact : m.active_animation = none) :
    m.update_animation m.animation_epoch now = (m, Effects.empty) := by
  simp [update_animation, hen, hact]

/-- Witness for C9 on a re-enabled idle manager. -/
theorem C9_idle_tick_noop_witness :
    (CursorAnimationManager.mk 4 true none).update_animation 4 1000000 =
      (CursorAnimationManager.mk 4 true none, Effects.empty) :=
  C9_idle_tick_noop (CursorAnimationManager.mk 4 true none) 1000000 rfl rfl

/-- C10: only `start_animation` changes the epoch.  `set_enabled`, the
settings observer, and the wake-up handler leave it unchanged (the query
operations are `&self` reads and cannot change it); a guard-failing
`start_animation` leaves it unchanged; a guard-passing one increments it by
exactly one and schedules a wake-up tagged with the new value. -/
theorem C10_epoch_discipline (m : CursorAnimationManager) :
    (∀ b, (m.set_enabled b).animation_epoch = m.animation_epoch) ∧
    (∀ b, (m.settings_changed b).animation_epoch = m.animation_epoch) ∧
    (∀ e now, (m.update_animation e now).1.animation_epoch = m.animation_epoch) ∧
    (∀ (p q : Point) (now : ℕ), (m.enabled = false ∨ p = q) →
      (m.start_animation p q now).1.animation_epoch = m.animation_epoch) ∧
    (∀ (p q : Point) (now : ℕ), m.enabled = true → p ≠ q →
      (m.start_animation p q now).1.animation_epoch = m.animation_epoch + 1 ∧
      (m.start_animation p q now).2.scheduled = [m.animation_epoch + 1]) := by
  refine ⟨?_, ?_, ?_, ?_, ?_⟩
  · intro b
    cases b <;> simp [set_enabled]
  · intro b
    by_cases h : m.enabled = b
    · simp [settings_changed, h]
    · cases b <;> simp [settings_changed, h]
  · intro e now
    by_cases h : e ≠ m.animation_epoch ∨ m.enabled = false
    · simp only [update_animation]
      rw [if_pos h]
    · simp only [update_animation]
      rw [if_neg h]
      cases hact : m.active_animation with
      | none => simp
      | some a =>
        by_cases hc : a.is_complete now
        · simp [hc]
        · simp [hc]
  · intro p q now h
    rw [start_animation_guard_noop m p q now h]
  · intro p q now hen hne
    simp [start_animation, hen, hne, next_animation_epoch, schedule_animation_frame]

/-- Witness for C10: on an enabled idle manager at epoch 3, a distinct-point
start moves the epoch to 4 and schedules a wake-up tagged 4; an equal-point
start leaves it at 3. -/
theorem C10_epoch_discipline_witness :
    (((CursorAnimationManager.mk 3 true none).start_animation ⟨0, 0⟩ ⟨1, 1⟩ 0).1.animation_epoch =
        4 ∧
      ((CursorAnimationManager.mk 3 true none).start_animation ⟨0, 0⟩ ⟨1, 1⟩ 0).2.scheduled =
        [4]) ∧
    ((CursorAnimationManager.mk 3 true none).start_animation ⟨1, 1⟩ ⟨1, 1⟩ 0).1.animation_epoch =
      3 :=
  ⟨(C10_epoch_discipline (CursorAnimationManager.mk 3 true none)).2.2.2.2 ⟨0, 0⟩ ⟨1, 1⟩ 0 rfl
      (by decide),
   (C10_epoch_discipline (CursorAnimationManager.mk 3 true none)).2.2.2.1 ⟨1, 1⟩ ⟨1, 1⟩ 0
      (Or.inr rfl)⟩

/-! Easing-curve facts used for the monotone-approach property. -/

/-- The ease-out-cubic curve is monotone (its derivative `3(1-t)²` is
nonnegative everywhere, so this needs no domain restriction). -/
theorem ease_out_cubic_mono {p q : ℚ} (h : p ≤ q) :
    ease_out_cubic p ≤ ease_out_cubic q := by
  simp only [ease_out_cubic]
  nlinarith [sq_nonneg ((1 - p) + (1 - q)), sq_nonneg ((1 - p) - (1 - q)),
    sq_nonneg (1 - p), sq_nonneg (1 - q)]

/-- On `[0, 1]` the ease-out-cubic curve is nonnegative. -/
theorem ease_out_cubic_nonneg {p : ℚ} (h0 : 0 ≤ p) (h1 : p ≤ 1) :
    0 ≤ ease_out_cubic p := by
  simp only [ease_out_cubic]
  nlinarith [sq_nonneg (1 - p), mul_nonneg h0 (sq_nonneg (1 - p))]

/-- For `p ≤ 1` the ease-out-cubic curve is at most 1. -/
theorem ease_out_cubic_le_one {p : ℚ} (h1 : p ≤ 1) :
    ease_out_cubic p ≤ 1 := by
  simp only [ease_out_cubic]
  nlinarith [sq_nonneg (1 - p), mul_nonneg (by linarith : (0:ℚ) ≤ 1 - p) (sq_nonneg (1 - p))]

theorem progress_at_nonneg (t0 t : ℕ) : 0 ≤ progress_at t0 t := by
  unfold progress_at
  positivity

theorem progress_at_le_one (t0 t : ℕ) (h : t - t0 < ANIMATION_DURATION_MS * NS_PER_MS) :
    progress_at t0 t ≤ 1 := by
  unfold progress_at ANIMATION_DURATION_MS
  rw [div_le_one (by norm_num)]
  have hms : ((t - t0) / NS_PER_MS : ℕ) ≤ 119 := by
    unfold NS_PER_MS
    unfold ANIMATION_DURATION_MS NS_PER_MS at h
    omega
  calc (((t - t0) / NS_PER_MS : ℕ) : ℚ) ≤ (119 : ℕ) := by exact_mod_cast hms
    _ ≤ 120 := by norm_num

theorem progress_at_mono (t0 : ℕ) {t1 t2 : ℕ} (h : t1 ≤ t2) :
    progress_at t0 t1 ≤ progress_at t0 t2 := by
  unfold progress_at
  have hnat : ((t1 - t0) / NS_PER_MS : ℕ) ≤ (t2 - t0) / NS_PER_MS :=
    Nat.div_le_div_right (Nat.sub_le_sub_right h t0)
  have : (((t1 - t0) / NS_PER_MS : ℕ) : ℚ) ≤ (((t2 - t0) / NS_PER_MS : ℕ) : ℚ) := by
    exact_mod_cast hnat
  apply div_le_div_of_nonneg_right this ?_ |>.trans_eq rfl
  unfold ANIMATION_DURATION_MS
  norm_num

theorem eased_at_mono (t0 : ℕ) {t1 t2 : ℕ} (h : t1 ≤ t2) :
    eased_at t0 t1 ≤ eased_at t0 t2 := by
  unfold eased_at
  by_cases h1 : ANIMATION_DURATION_MS * NS_PER_MS ≤ t1 - t0
  · have h2 : ANIMATION_DURATION_MS * NS_PER_MS ≤ t2 - t0 :=
      le_trans h1 (Nat.sub_le_sub_right h t0)
    rw [if_pos h1, if_pos h2]
  · by_cases h2 : ANIMATION_DURATION_MS * NS_PER_MS ≤ t2 - t0
    · rw [if_neg h1, if_pos h2]
      exact ease_out_cubic_le_one (progress_at_le_one t0 t1 (lt_of_not_le h1))
    · rw [if_neg h1, if_neg h2]
      exact ease_out_cubic_mono (progress_at_mono t0 h)

theorem eased_at_nonneg (t0 t : ℕ) : 0 ≤ eased_at t0 t := by
  unfold eased_at
  by_cases h : ANIMATION_DURATION_MS * NS_PER_MS ≤ t - t0
  · rw [if_pos h]; norm_num
  · rw [if_neg h]
    exact ease_out_cubic_nonneg (progress_at_nonneg t0 t)
      (progress_at_le_one t0 t (lt_of_not_le h))

theorem eased_at_le_one (t0 t : ℕ) : eased_at t0 t ≤ 1 := by
  unfold eased_at
  by_cases h : ANIMATION_DURATION_MS * NS_PER_MS ≤ t - t0
  · rw [if_pos h]
  · rw [if_neg h]
    exact ease_out_cubic_le_one (progress_at_le_one t0 t (lt_of_not_le h))

/-- A `new`-built interpolator's position is the lerp of start to end by the
effective easing factor, on both axes (the complete branch is the factor-1
case). -/
theorem current_position_new_eq (s e : Point) (t0 t : ℕ) :
    (AnimatedCursorPosition.new s e t0).current_position t =
      { x := s.x + (e.x - s.x) * eased_at t0 t
        y := s.y + (e.y - s.y) * eased_at t0 t } := by
  simp only [AnimatedCursorPosition.current_position, AnimatedCursorPosition.new, eased_at,
    progress_at, ease_out_cubic]
  by_cases h : ANIMATION_DURATION_MS * NS_PER_MS ≤ t - t0
  · rw [if_pos h, if_pos h]
    cases e
    simp only [Point.mk.injEq]
    constructor <;> ring
  · rw [if_neg h, if_neg h]
    have hd : (ANIMATION_DURATION_MS * NS_PER_MS / NS_PER_MS : ℕ) = ANIMATION_DURATION_MS := by
      decide
    rw [hd]

/-- Lerping with a larger factor (both in `[0,1]`) is at least as close to
the endpoint. -/
theorem lerp_closer (s e θ₁ θ₂ : ℚ) (h12 : θ₁ ≤ θ₂) (h2 : θ₂ ≤ 1) :
    |e - (s + (e - s) * θ₂)| ≤ |e - (s + (e - s) * θ₁)| := by
  have e1 : e - (s + (e - s) * θ₁) = (e - s) * (1 - θ₁) := by ring
  have e2 : e - (s + (e - s) * θ₂) = (e - s) * (1 - θ₂) := by ring
  rw [e1, e2, abs_mul, abs_mul]
  apply mul_le_mul_of_nonneg_left ?_ (abs_nonneg _)
  rw [abs_of_nonneg (by linarith), abs_of_nonneg (by linarith)]
  linarith

/-- A lerp with factor in `[0,1]` stays between the two endpoints. -/
theorem lerp_between (s e θ : ℚ) (h0 : 0 ≤ θ) (h1 : θ ≤ 1) :
    min s e ≤ s + (e - s) * θ ∧ s + (e - s) * θ ≤ max s e := by
  rcases le_total s e with h | h
  · rw [min_eq_left h, max_eq_right h]
    constructor <;> nlinarith
  · rw [min_eq_right h, max_eq_left h]
    constructor <;> nlinarith

/-- C8: for an interpolator over distinct points and query times `t1 ≤ t2`,
on each axis the position at `t2` is at least as close to the end point as
the position at `t1`, and every position stays between the start and end
coordinates (so it never overshoots the end point). -/
theorem C8_monotone_no_overshoot (s e : Point) (t0 t1 t2 : ℕ)
    (hne : s ≠ e) (h12 : t1 ≤ t2) :
    (|e.x - ((AnimatedCursorPosition.new s e t0).current_position t2).x| ≤
        |e.x - ((AnimatedCursorPosition.new s e t0).current_position t1).x| ∧
      |e.y - ((AnimatedCursorPosition.new s e t0).current_position t2).y| ≤
        |e.y - ((AnimatedCursorPosition.new s e t0).current_position t1).y|) ∧
    (min s.x e.x ≤ ((AnimatedCursorPosition.new s e t0).current_position t2).x ∧
      ((AnimatedCursorPosition.new s e t0).current_position t2).x ≤ max s.x e.x ∧
      min s.y e.y ≤ ((AnimatedCursorPosition.new s e t0).current_position t2).y ∧
      ((AnimatedCursorPosition.new s e t0).current_position t2).y ≤ max s.y e.y) := by
  rw [current_position_new_eq, current_position_new_eq]
  have hm := eased_at_mono t0 h12
  have h0 := eased_at_nonneg t0 t2
  have h1 := eased_at_le_one t0 t2
  refine ⟨⟨lerp_closer _ _ _ _ hm h1, lerp_closer _ _ _ _ hm h1⟩, ?_⟩
  exact ⟨(lerp_between s.x e.x _ h0 h1).1, (lerp_between s.x e.x _ h0 h1).2,
    (lerp_between s.y e.y _ h0 h1).1, (lerp_between s.y e.y _ h0 h1).2⟩

/-- Witness for C8 with start (0,0), end (1,2), comparing 30 ms against
200 ms of elapsed time. -/
theorem C8_monotone_no_overshoot_witness :
    (|(1 : ℚ) - ((AnimatedCursorPosition.new ⟨0, 0⟩ ⟨1, 2⟩ 0).current_position 200000000).x| ≤
        |(1 : ℚ) - ((AnimatedCursorPosition.new ⟨0, 0⟩ ⟨1, 2⟩ 0).current_position 30000000).x| ∧
      |(2 : ℚ) - ((AnimatedCursorPosition.new ⟨0, 0⟩ ⟨1, 2⟩ 0).current_position 200000000).y| ≤
        |(2 : ℚ) - ((AnimatedCursorPosition.new ⟨0, 0⟩ ⟨1, 2⟩ 0).current_position 30000000).y|) ∧
    (min (0 : ℚ) 1 ≤ ((AnimatedCursorPosition.new ⟨0, 0⟩ ⟨1, 2⟩ 0).current_position 200000000).x ∧
      ((AnimatedCursorPosition.new ⟨0, 0⟩ ⟨1, 2⟩ 0).current_position 200000000).x ≤ max (0 : ℚ) 1 ∧
      min (0 : ℚ) 2 ≤ ((AnimatedCursorPosition.new ⟨0, 0⟩ ⟨1, 2⟩ 0).current_position 200000000).y ∧
      ((AnimatedCursorPosition.new ⟨0, 0⟩ ⟨1, 2⟩ 0).current_position 200000000).y ≤ max (0 : ℚ) 2) :=
  C8_monotone_no_overshoot ⟨0, 0⟩ ⟨1, 2⟩ 0 30000000 200000000 (by decide) (by decide)

/-! Reachability-invariant development for the controller. -/

/-- A wake-up either leaves the state unchanged or only clears the active
animation. -/
theorem update_animation_state_cases (m : CursorAnimationManager) (e now : ℕ) :
    (m.update_animation e now).1 = m ∨
    (m.update_animation e now).1 = { m with active_animation := none } := by
  by_cases hg : e ≠ m.animation_epoch ∨ m.enabled = false
  · left
    simp only [update_animation]
    rw [if_pos hg]
  · simp only [update_animation]
    rw [if_neg hg]
    cases hact : m.active_animation with
    | none => left; rfl
    | some a =>
      by_cases hc : a.is_complete now
      · right; simp [hc]
      · left; simp [hc]

/-- `start_animation` either leaves the state unchanged (a guard fired) or,
necessarily while enabled, installs the fresh interpolator and bumps the
epoch. -/
theorem start_animation_state_cases (m : CursorAnimationManager) (p q : Point) (now : ℕ) :
    (m.start_animation p q now).1 = m ∨
    ((m.start_animation p q now).1 =
        { m with
          animation_epoch := m.animation_epoch + 1
          active_animation := some (AnimatedCursorPosition.new p q now) } ∧
      m.enabled = true) := by
  by_cases hen : m.enabled
  · by_cases hpq : p = q
    · left
      rw [start_animation_guard_noop m p q now (Or.inr hpq)]
    · right
      refine ⟨?_, hen⟩
      simp [start_animation, hen, hpq, next_animation_epoch]
  · left
    rw [start_animation_guard_noop m p q now (Or.inl (Bool.eq_false_iff.2 hen))]

/-- Every step preserves "an active animation implies the flag is enabled". -/
theorem step_preserves_active_imp_enabled
    {x y : CursorAnimationManager × ℕ} (st : Step x y)
    (ih : ∀ a, x.1.active_animation = some a → x.1.enabled = true) :
    ∀ a, y.1.active_animation = some a → y.1.enabled = true := by
  cases st with
  | wait m t u h => exact ih
  | start m t u p q h =>
    intro a ha
    rcases start_animation_state_cases m p q u with heq | ⟨heq, hen⟩
    · rw [heq] at ha ⊢
      exact ih a ha
    · rw [heq]
      exact hen
  | tick m t u e h =>
    intro a ha
    rcases update_animation_state_cases m e u with heq | heq
    · rw [heq] at ha ⊢
      exact ih a ha
    · rw [heq] at ha
      simp at ha
  | toggle m t u b =>
    intro a ha
    cases b with
    | false => simp [set_enabled] at ha
    | true => simp [set_enabled]
  | settings m t u b =>
    intro a ha
    by_cases hsame : m.enabled ≠ b
    · cases b with
      | false => simp [settings_changed, hsame] at ha
      | true => simp [settings_changed, hsame]
    · simp only [settings_changed] at ha ⊢
      rw [if_neg hsame] at ha ⊢
      exact ih a ha

/-- C3 as stated is false on the code: an animation that has completed stays
`Some` until a matching wake-up or a disable clears it.  Concretely: enable,
start (0,0)→(1,0) at time 0, then let 200 ms pass with the scheduled wake-up
not yet delivered — the active animation is still `Some` but complete. -/
theorem C3_counterexample :
    ¬ (∀ (m : CursorAnimationManager) (t : ℕ), ReachableAt m t →
        ∀ a, m.active_animation = some a →
          m.enabled = true ∧ a.is_complete t = false) := by
  intro hclaim
  have r1 : Relation.ReflTransGen Step (CursorAnimationManager.init, 0)
      (CursorAnimationManager.init.set_enabled true, 0) :=
    Relation.ReflTransGen.refl.tail (Step.toggle CursorAnimationManager.init 0 0 true le_rfl)
  have r2 : Relation.ReflTransGen Step (CursorAnimationManager.init, 0)
      (((CursorAnimationManager.init.set_enabled true).start_animation ⟨0, 0⟩ ⟨1, 0⟩ 0).1, 0) :=
    r1.tail (Step.start (CursorAnimationManager.init.set_enabled true) 0 0 ⟨0, 0⟩ ⟨1, 0⟩ le_rfl)
  have r3 : ReachableAt
      ((CursorAnimationManager.init.set_enabled true).start_animation ⟨0, 0⟩ ⟨1, 0⟩ 0).1
      200000000 :=
    r2.tail (Step.wait _ 0 200000000 (by decide))
  have hsome : ((CursorAnimationManager.init.set_enabled true).start_animation
      ⟨0, 0⟩ ⟨1, 0⟩ 0).1.active_animation = some (AnimatedCursorPosition.new ⟨0, 0⟩ ⟨1, 0⟩ 0) := by
    decide
  have hfalse := (hclaim _ _ r3 (AnimatedCursorPosition.new ⟨0, 0⟩ ⟨1, 0⟩ 0) hsome).2
  have htrue : (AnimatedCursorPosition.new ⟨0, 0⟩ ⟨1, 0⟩ 0).is_complete 200000000 = true := by
    decide
  rw [hfalse] at htrue
  exact Bool.false_ne_true htrue

/-- C3 amended: in every reachable timed state, an active animation implies
the enabled flag is true; an animation installed by a guard-passing
`start_animation` is not complete at the moment of installation; and a
current-epoch, enabled wake-up never leaves a complete animation in place.
(A completed animation may, however, remain `Some` until the next wake-up or
a disable clears it — the part of the original claim the counterexample
refutes.) -/
theorem C3_active_invariant :
    (∀ (m : CursorAnimationManager) (t : ℕ), ReachableAt m t →
      ∀ a, m.active_animation = some a → m.enabled = true) ∧
    (∀ (m : CursorAnimationManager) (p q : Point) (now : ℕ) (a : AnimatedCursorPosition),
      m.enabled = true → p ≠ q →
      (m.start_animation p q now).1.active_animation = some a →
      a.is_complete now = false) ∧
    (∀ (m : CursorAnimationManager) (now : ℕ) (a : AnimatedCursorPosition),
      m.enabled = true →
      (m.update_animation m.animation_epoch now).1.active_animation = some a →
      a.is_complete now = false) := by
  refine ⟨?_, ?_, ?_⟩
  · intro m t r
    suffices hgen : ∀ y : CursorAnimationManager × ℕ,
        Relation.ReflTransGen Step (CursorAnimationManager.init, 0) y →
        ∀ a, y.1.active_animation = some a → y.1.enabled = true from hgen (m, t) r
    intro y r
    induction r with
    | refl =>
      intro a ha
      simp [CursorAnimationManager.init] at ha
    | tail _ st ih => exact step_preserves_active_imp_enabled st ih
  · intro m p q now a hen hpq ha
    have : (m.start_animation p q now).1 =
        { m with
          animation_epoch := m.animation_epoch + 1
          active_animation := some (AnimatedCursorPosition.new p q now) } := by
      simp [start_animation, hen, hpq, next_animation_epoch]
    rw [this] at ha
    simp only [Option.some.injEq] at ha
    subst ha
    simp [AnimatedCursorPosition.is_complete, AnimatedCursorPosition.new,
      ANIMATION_DURATION_MS, NS_PER_MS]
  · intro m now a hen ha
    have hguard : ¬ (m.animation_epoch ≠ m.animation_epoch ∨ m.enabled = false) := by
      simp [hen]
    simp only [update_animation] at ha
    rw [if_neg hguard] at ha
    cases hact : m.active_animation with
    | none =>
      rw [hact] at ha
      simp at ha
      simp [hact] at ha
    | some b =>
      rw [hact] at ha
      by_cases hc : b.is_complete now
      · simp [hc] at ha
      · have hc' : b.is_complete now = false := by
          simpa using hc
        simp [hc'] at ha
        rw [hact] at ha
        simp only [Option.some.injEq] at ha
        exact ha ▸ hc'

/-- Witness for the amended C3: a reachable enabled state actually carrying
its freshly started animation; a fresh installation that is incomplete at
install time; an in-flight wake-up that keeps only an incomplete animation. -/
theorem C3_active_invariant_witness :
    (((CursorAnimationManager.init.set_enabled true).start_animation
        ⟨0, 0⟩ ⟨1, 0⟩ 0).1.enabled = true) ∧
    ((AnimatedCursorPosition.new ⟨0, 0⟩ ⟨1, 0⟩ 0).is_complete 0 = false) ∧
    ((AnimatedCursorPosition.new ⟨0, 0⟩ ⟨1, 0⟩ 0).is_complete 8000000 = false) := by
  refine ⟨?_, ?_, ?_⟩
  · have r1 : Relation.ReflTransGen Step (CursorAnimationManager.init, 0)
        (CursorAnimationManager.init.set_enabled true, 0) :=
      Relation.ReflTransGen.refl.tail (Step.toggle CursorAnimationManager.init 0 0 true le_rfl)
    have r2 : ReachableAt
        (((CursorAnimationManager.init.set_enabled true).start_animation ⟨0, 0⟩ ⟨1, 0⟩ 0).1) 0 :=
      r1.tail (Step.start (CursorAnimationManager.init.set_enabled true) 0 0 ⟨0, 0⟩ ⟨1, 0⟩ le_rfl)
    exact C3_active_invariant.1 _ 0 r2 (AnimatedCursorPosition.new ⟨0, 0⟩ ⟨1, 0⟩ 0) (by decide)
  · exact C3_active_invariant.2.1 (CursorAnimationManager.mk 0 true none) ⟨0, 0⟩ ⟨1, 0⟩ 0
      (AnimatedCursorPosition.new ⟨0, 0⟩ ⟨1, 0⟩ 0) rfl (by decide) (by decide)
  · exact C3_active_invariant.2.2
      (CursorAnimationManager.mk 1 true (some (AnimatedCursorPosition.new ⟨0, 0⟩ ⟨1, 0⟩ 0)))
      8000000 (AnimatedCursorPosition.new ⟨0, 0⟩ ⟨1, 0⟩ 0) rfl (by decide)

end ZedCursor
